import Mathlib

/-
Verification of the NirmanApp material-stock subsystem.

The definitions below are a shallow embedding of the TypeScript sources:
  - src/shared/schema.ts        (data model and insert schemas)
  - src/server/storage.ts       (MemStorage: the in-memory implementation of IStorage)
  - src/client/src/components/materials/MaterialList.tsx (getStockStatus)

Conventions of the embedding:
  - JavaScript numbers holding quantities (schema type "real") are modelled as
    rationals; ids and the clock as naturals.
  - A JavaScript Map is modelled as an association list in insertion order;
    Map.set replaces the entry at an existing key in place and appends fresh
    keys at the end, which is exactly JavaScript semantics when keys are
    unique (they always are for a Map).
  - Date values are an abstract tick `now : Nat` passed to each operation that
    calls `new Date()`.
  - async/await and Promise are erased: every operation is a pure function
    from the storage state to (result, new state).
-/

set_option autoImplicit false

namespace Nirman

/-! ## Data model (src/shared/schema.ts) -/

/-- Row type of the `materials` table. -/
structure Material where
  id : Nat
  siteId : Nat
  name : String
  category : String
  unit : String
  quantity : ℚ
  minStockLevel : ℚ
  lastUpdated : Nat
  deriving DecidableEq

/-- InsertMaterial: the `materials` row without `id` and `lastUpdated`. -/
structure InsertMaterial where
  siteId : Nat
  name : String
  category : String
  unit : String
  quantity : ℚ
  minStockLevel : ℚ
  deriving DecidableEq

/-- `Partial<InsertMaterial>`: every field optional, used by updateMaterial. -/
structure MaterialPatch where
  siteId : Option Nat
  name : Option String
  category : Option String
  unit : Option String
  quantity : Option ℚ
  minStockLevel : Option ℚ
  deriving DecidableEq

/-- Row type of the `material_transactions` table. -/
structure MaterialTransaction where
  id : Nat
  materialId : Nat
  siteId : Nat
  date : Nat
  transactionType : String
  quantity : ℚ
  notes : Option String
  recordedBy : String
  deriving DecidableEq

/-- InsertMaterialTransaction: the `material_transactions` row without `id`. -/
structure InsertMaterialTransaction where
  materialId : Nat
  siteId : Nat
  date : Nat
  transactionType : String
  quantity : ℚ
  notes : Option String
  recordedBy : String
  deriving DecidableEq

/-- insertMaterialTransactionSchema is `createInsertSchema(materialTransactions).omit(\x7b id: true \x7d)`:
it checks only field presence and primitive types, with no refinement on the
sign of `quantity` and no enum restriction on `transactionType`.  On a value
already of type `InsertMaterialTransaction` the parse therefore always
succeeds and returns the value unchanged. -/
def insertMaterialTransactionSchemaParse (t : InsertMaterialTransaction) :
    Option InsertMaterialTransaction :=
  some t

/-! ## JavaScript Map as an association list -/

/-- `map.get(k)`. -/
def mapGet {α : Type} : List (Nat × α) → Nat → Option α
  | [], _ => none
  | p :: t, k => if p.1 = k then some p.2 else mapGet t k

/-- `map.set(k, v)`: replace in place at an existing key, append otherwise. -/
def mapSet {α : Type} : List (Nat × α) → Nat → α → List (Nat × α)
  | [], k, v => [(k, v)]
  | p :: t, k, v => if p.1 = k then (k, v) :: t else p :: mapSet t k v

/-- `map.delete(k)` (the resulting map). -/
def mapDel {α : Type} : List (Nat × α) → Nat → List (Nat × α)
  | [], _ => []
  | p :: t, k => if p.1 = k then mapDel t k else p :: mapDel t k

/-- `map.has(k)`, also the boolean returned by `map.delete(k)`. -/
def mapHas {α : Type} (m : List (Nat × α)) (k : Nat) : Bool :=
  (mapGet m k).isSome

/-- `Array.from(map.values())` in insertion order. -/
def mapValues {α : Type} (m : List (Nat × α)) : List α :=
  m.map Prod.snd

theorem mapGet_mapSet {α : Type} (m : List (Nat × α)) (k q : Nat) (v : α) :
    mapGet (mapSet m k v) q = if q = k then some v else mapGet m q := by
  induction m with
  | nil =>
      by_cases h : q = k <;> simp [mapSet, mapGet, h]
      intro h'
      exact absurd h'.symm h
  | cons p t ih =>
      by_cases hp : p.1 = k
      · by_cases hq : q = k
        · simp [mapSet, mapGet, hp, hq]
        · have hk : ¬ k = q := fun h => hq h.symm
          simp [mapSet, mapGet, hp, hq, hk]
      · by_cases hq : p.1 = q
        · have : ¬ q = k := fun h => hp (hq.trans h)
          simp [mapSet, mapGet, hp, hq, this]
        · simp [mapSet, mapGet, hp, hq, ih]

theorem mapGet_mapSet_same {α : Type} (m : List (Nat × α)) (k : Nat) (v : α) :
    mapGet (mapSet m k v) k = some v := by
  simp [mapGet_mapSet]

theorem mapGet_mapSet_ne {α : Type} (m : List (Nat × α)) (k q : Nat) (v : α)
    (h : q ≠ k) : mapGet (mapSet m k v) q = mapGet m q := by
  simp [mapGet_mapSet, h]

theorem mapGet_mapDel_same {α : Type} (m : List (Nat × α)) (k : Nat) :
    mapGet (mapDel m k) k = none := by
  induction m with
  | nil => simp [mapDel, mapGet]
  | cons p t ih =>
      by_cases hp : p.1 = k
      · simp [mapDel, hp, ih]
      · simp [mapDel, mapGet, hp, ih]

theorem mapGet_some_mem {α : Type} (m : List (Nat × α)) (k : Nat) (v : α)
    (h : mapGet m k = some v) : (k, v) ∈ m := by
  induction m with
  | nil => simp [mapGet] at h
  | cons p t ih =>
      by_cases hp : p.1 = k
      · simp [mapGet, hp] at h
        have hpv : p = (k, v) := by cases p; simp_all
        rw [← hpv]
        exact List.mem_cons_self p t
      · simp [mapGet, hp] at h
        exact List.mem_cons_of_mem p (ih h)

/-! ## MemStorage state (src/server/storage.ts) -/

/-- The fields of MemStorage that the material subsystem touches: the two maps
and their id counters.  The remaining entity maps (sites, workers, attendance,
expenses, photos, notes, users) never reference `materialTransactions` or
`materials` and are omitted. -/
structure MemStorage where
  materials : List (Nat × Material)
  materialTransactions : List (Nat × MaterialTransaction)
  materialId : Nat
  materialTransactionId : Nat
  deriving DecidableEq

/-- `getMaterial(id)`. -/
def getMaterial (st : MemStorage) (id : Nat) : Option Material :=
  mapGet st.materials id

/-- `getMaterials(siteId)`. -/
def getMaterials (st : MemStorage) (siteId : Nat) : List Material :=
  (mapValues st.materials).filter (fun m => decide (m.siteId = siteId))

/-- `createMaterial(material)`; `now` is the `new Date()` stored in
`lastUpdated`. -/
def createMaterial (st : MemStorage) (material : InsertMaterial) (now : Nat) :
    Material × MemStorage :=
  let id := st.materialId
  let newMaterial : Material :=
    { id := id, siteId := material.siteId, name := material.name,
      category := material.category, unit := material.unit,
      quantity := material.quantity, minStockLevel := material.minStockLevel,
      lastUpdated := now }
  (newMaterial,
   { st with materials := mapSet st.materials id newMaterial,
             materialId := id + 1 })

/-- The spread `\x7b ...existingMaterial, ...material, lastUpdated: new Date() \x7d`
of updateMaterial. -/
def applyMaterialPatch (m : Material) (p : MaterialPatch) (now : Nat) :
    Material :=
  { id := m.id
    siteId := p.siteId.getD m.siteId
    name := p.name.getD m.name
    category := p.category.getD m.category
    unit := p.unit.getD m.unit
    quantity := p.quantity.getD m.quantity
    minStockLevel := p.minStockLevel.getD m.minStockLevel
    lastUpdated := now }

/-- `updateMaterial(id, material)`: undefined when the id is absent, otherwise
the merged record is stored and returned. -/
def updateMaterial (st : MemStorage) (id : Nat) (p : MaterialPatch)
    (now : Nat) : Option Material × MemStorage :=
  match mapGet st.materials id with
  | none => (none, st)
  | some existingMaterial =>
      let updatedMaterial := applyMaterialPatch existingMaterial p now
      (some updatedMaterial,
       { st with materials := mapSet st.materials id updatedMaterial })

/-- `deleteMaterial(id)`: returns `map.delete(id)`. -/
def deleteMaterial (st : MemStorage) (id : Nat) : Bool × MemStorage :=
  (mapHas st.materials id,
   { st with materials := mapDel st.materials id })

/-- `getLowStockMaterials(siteId)`. -/
def getLowStockMaterials (st : MemStorage) (siteId : Nat) : List Material :=
  (mapValues st.materials).filter
    (fun m => decide (m.siteId = siteId ∧ m.quantity < m.minStockLevel))

/-- The record `\x7b ...transaction, id \x7d` stored by
createMaterialTransaction. -/
def newTransactionRecord (st : MemStorage)
    (transaction : InsertMaterialTransaction) : MaterialTransaction :=
  { id := st.materialTransactionId
    materialId := transaction.materialId
    siteId := transaction.siteId
    date := transaction.date
    transactionType := transaction.transactionType
    quantity := transaction.quantity
    notes := transaction.notes
    recordedBy := transaction.recordedBy }

/-- The `Partial<InsertMaterial>` value `\x7b quantity: newQuantity \x7d`. -/
def quantityPatch (q : ℚ) : MaterialPatch :=
  { siteId := none, name := none, category := none, unit := none,
    quantity := some q, minStockLevel := none }

/-- `createMaterialTransaction(transaction)`: stores the record under the next
id, then (when the referenced Material exists) recomputes its quantity —
adding for "added", subtracting and clamping at 0 for "used", unchanged for
any other string — and writes it back through updateMaterial. -/
def createMaterialTransaction (st : MemStorage)
    (transaction : InsertMaterialTransaction) (now : Nat) :
    MaterialTransaction × MemStorage :=
  let id := st.materialTransactionId
  let newTransaction := newTransactionRecord st transaction
  let st1 : MemStorage :=
    { st with
      materialTransactions := mapSet st.materialTransactions id newTransaction,
      materialTransactionId := id + 1 }
  match getMaterial st1 transaction.materialId with
  | none => (newTransaction, st1)
  | some material =>
      let newQuantity : ℚ :=
        if transaction.transactionType = "added" then
          material.quantity + transaction.quantity
        else if transaction.transactionType = "used" then
          if material.quantity - transaction.quantity < 0 then 0
          else material.quantity - transaction.quantity
        else material.quantity
      (newTransaction,
       (updateMaterial st1 material.id (quantityPatch newQuantity) now).2)

/-! ## Client-side stock classification (MaterialList.tsx, getStockStatus) -/

inductive StockStatus where
  | critical
  | low
  | sufficient
  deriving DecidableEq

/-- getStockStatus of MaterialList.tsx.  The source computes
`stockPercentage = quantity / minStockLevel * 100` on JavaScript numbers and
tests `< 40`, then `< 100`.  When `minStockLevel = 0` the JavaScript quotient
is NaN (for quantity 0) or signed Infinity; both comparisons are then false
except for negative Infinity, so the first branch below reproduces that
behaviour; otherwise the rational quotient agrees with the real-valued one. -/
def getStockStatus (material : Material) : StockStatus :=
  if material.minStockLevel = 0 then
    if material.quantity < 0 then .critical else .sufficient
  else
    if material.quantity / material.minStockLevel * 100 < 40 then .critical
    else if material.quantity / material.minStockLevel * 100 < 100 then .low
    else .sufficient

/-! ## Derived forms of createMaterialTransaction -/

/-- The quantity written back by createMaterialTransaction when it finds
Material `m`. -/
def newQuantityFor (m : Material) (t : InsertMaterialTransaction) : ℚ :=
  if t.transactionType = "added" then m.quantity + t.quantity
  else if t.transactionType = "used" then
    if m.quantity - t.quantity < 0 then 0 else m.quantity - t.quantity
  else m.quantity

theorem createMaterialTransaction_eq_none (st : MemStorage)
    (t : InsertMaterialTransaction) (now : Nat)
    (h : mapGet st.materials t.materialId = none) :
    createMaterialTransaction st t now =
      (newTransactionRecord st t,
       { st with
         materialTransactions :=
           mapSet st.materialTransactions st.materialTransactionId
             (newTransactionRecord st t),
         materialTransactionId := st.materialTransactionId + 1 }) := by
  simp [createMaterialTransaction, getMaterial, h]

theorem createMaterialTransaction_eq_some (st : MemStorage)
    (t : InsertMaterialTransaction) (now : Nat) (m : Material)
    (h : mapGet st.materials t.materialId = some m) :
    createMaterialTransaction st t now =
      (newTransactionRecord st t,
       (updateMaterial
          { st with
            materialTransactions :=
              mapSet st.materialTransactions st.materialTransactionId
                (newTransactionRecord st t),
            materialTransactionId := st.materialTransactionId + 1 }
          m.id (quantityPatch (newQuantityFor m t)) now).2) := by
  simp [createMaterialTransaction, getMaterial, h, newQuantityFor]

theorem applyMaterialPatch_quantityPatch (m : Material) (q : ℚ) (now : Nat) :
    applyMaterialPatch m (quantityPatch q) now =
      { m with quantity := q, lastUpdated := now } := rfl

/-! ## Storage operations as a step function, and transaction sequences -/

/-- The mutating IStorage operations that touch the material subsystem.  The
remaining IStorage operations read or write only the entity maps for sites,
workers, attendance, expenses, photos, notes and users, which are disjoint
from `materials` and `materialTransactions`. -/
inductive StorageOp where
  | createMaterialOp (material : InsertMaterial) (now : Nat)
  | updateMaterialOp (id : Nat) (p : MaterialPatch) (now : Nat)
  | deleteMaterialOp (id : Nat)
  | createMaterialTransactionOp (t : InsertMaterialTransaction) (now : Nat)

/-- The state after one storage operation. -/
def applyOp (st : MemStorage) : StorageOp → MemStorage
  | .createMaterialOp m now => (createMaterial st m now).2
  | .updateMaterialOp id p now => (updateMaterial st id p now).2
  | .deleteMaterialOp id => (deleteMaterial st id).2
  | .createMaterialTransactionOp t now => (createMaterialTransaction st t now).2

/-- The state after a sequence of createMaterialTransaction calls, each with
its own clock tick. -/
def runTransactions (st : MemStorage)
    (txs : List (InsertMaterialTransaction × Nat)) : MemStorage :=
  txs.foldl (fun s t => (createMaterialTransaction s t.1 t.2).2) st

/-- The input constraint of claim C1: a documented transaction type and a
positive quantity. -/
def txOk (t : InsertMaterialTransaction) : Prop :=
  (t.transactionType = "added" ∨ t.transactionType = "used") ∧ 0 < t.quantity

instance (t : InsertMaterialTransaction) : Decidable (txOk t) := by
  unfold txOk
  infer_instance

/-- Every Material stored in the state has a non-negative quantity. -/
def allQuantitiesNonneg (st : MemStorage) : Prop :=
  ∀ p ∈ st.materials, 0 ≤ (Prod.snd p).quantity

instance (st : MemStorage) : Decidable (allQuantitiesNonneg st) := by
  unfold allQuantitiesNonneg
  infer_instance

/-- Every stored transaction id is below the transaction id counter.  This
holds in every state MemStorage actually reaches, because ids are handed out
by the counter, which only grows. -/
def txIdsBounded (st : MemStorage) : Prop :=
  ∀ p ∈ st.materialTransactions, p.1 < st.materialTransactionId

instance (st : MemStorage) : Decidable (txIdsBounded st) := by
  unfold txIdsBounded
  infer_instance

theorem mem_mapSet {α : Type} (m : List (Nat × α)) (k : Nat) (v : α)
    (q : Nat × α) (h : q ∈ mapSet m k v) : q = (k, v) ∨ q ∈ m := by
  induction m with
  | nil => simp [mapSet] at h; simp [h]
  | cons p t ih =>
      by_cases hp : p.1 = k
      · simp [mapSet, hp] at h
        rcases h with h | h
        · exact Or.inl h
        · exact Or.inr (List.mem_cons_of_mem p h)
      · simp [mapSet, hp] at h
        rcases h with h | h
        · simp [h]
        · rcases ih h with h' | h'
          · exact Or.inl h'
          · exact Or.inr (List.mem_cons_of_mem p h')

theorem ite_lt_zero_eq_max (x : ℚ) : (if x < 0 then 0 else x) = max x 0 := by
  rcases lt_or_le x 0 with h | h
  · rw [if_pos h, max_eq_right h.le]
  · rw [if_neg (not_lt.mpr h), max_eq_left h]

theorem updateMaterial_transactions (st : MemStorage) (id : Nat)
    (p : MaterialPatch) (now : Nat) :
    (updateMaterial st id p now).2.materialTransactions =
      st.materialTransactions := by
  cases h : mapGet st.materials id <;> simp [updateMaterial, h]

theorem updateMaterial_txCounter (st : MemStorage) (id : Nat)
    (p : MaterialPatch) (now : Nat) :
    (updateMaterial st id p now).2.materialTransactionId =
      st.materialTransactionId := by
  cases h : mapGet st.materials id <;> simp [updateMaterial, h]

theorem createMaterialTransaction_transactions (st : MemStorage)
    (t : InsertMaterialTransaction) (now : Nat) :
    (createMaterialTransaction st t now).2.materialTransactions =
      mapSet st.materialTransactions st.materialTransactionId
        (newTransactionRecord st t) := by
  cases hmat : mapGet st.materials t.materialId with
  | none => rw [createMaterialTransaction_eq_none st t now hmat]
  | some m =>
      rw [createMaterialTransaction_eq_some st t now m hmat]
      rw [updateMaterial_transactions]

theorem createMaterialTransaction_txCounter (st : MemStorage)
    (t : InsertMaterialTransaction) (now : Nat) :
    (createMaterialTransaction st t now).2.materialTransactionId =
      st.materialTransactionId + 1 := by
  cases hmat : mapGet st.materials t.materialId with
  | none => rw [createMaterialTransaction_eq_none st t now hmat]
  | some m =>
      rw [createMaterialTransaction_eq_some st t now m hmat]
      rw [updateMaterial_txCounter]

theorem newQuantityFor_nonneg (m : Material) (t : InsertMaterialTransaction)
    (hok : txOk t) (hm : 0 ≤ m.quantity) : 0 ≤ newQuantityFor m t := by
  rcases hok with ⟨hty, hq⟩
  rcases hty with h | h
  · simp only [newQuantityFor, h, if_pos rfl]
    exact add_nonneg hm hq.le
  · simp only [newQuantityFor, h]
    rw [if_neg (by decide : ¬ ("used" : String) = "added")]
    rcases lt_or_le (m.quantity - t.quantity) 0 with hlt | hle
    · rw [if_pos trivial, if_pos hlt]
    · rw [if_pos trivial, if_neg (not_lt.mpr hle)]
      exact hle

theorem createMaterialTransaction_preserves_nonneg (st : MemStorage)
    (t : InsertMaterialTransaction) (now : Nat)
    (hok : txOk t) (hst : allQuantitiesNonneg st) :
    allQuantitiesNonneg (createMaterialTransaction st t now).2 := by
  cases hmat : mapGet st.materials t.materialId with
  | none =>
      rw [createMaterialTransaction_eq_none st t now hmat]
      exact fun p hp => hst p hp
  | some m =>
      have hm0 : 0 ≤ m.quantity :=
        hst (t.materialId, m) (mapGet_some_mem _ _ _ hmat)
      rw [createMaterialTransaction_eq_some st t now m hmat]
      cases hm2 : mapGet st.materials m.id with
      | none =>
          simp only [updateMaterial, hm2]
          exact fun p hp => hst p hp
      | some m2 =>
          simp only [updateMaterial, hm2]
          intro p hp
          rcases mem_mapSet _ _ _ _ hp with h | h
          · rw [h]
            simpa [applyMaterialPatch_quantityPatch] using
              newQuantityFor_nonneg m t hok hm0
          · exact hst p h

/-! ## Concrete sample data used to instantiate the theorems -/

/-- The cement Material of the spec scenarios: quantity 15, minimum stock
level 50. -/
def sampleMaterial : Material :=
  { id := 1, siteId := 1, name := "Cement", category := "Building",
    unit := "bags", quantity := 15, minStockLevel := 50, lastUpdated := 0 }

/-- A store holding only `sampleMaterial`, with counters ahead of the ids. -/
def sampleState : MemStorage :=
  { materials := [(1, sampleMaterial)],
    materialTransactions := [],
    materialId := 2,
    materialTransactionId := 1 }

/-- The spec scenario transaction: use 20 bags against stock 15. -/
def sampleUsedTx : InsertMaterialTransaction :=
  { materialId := 1, siteId := 1, date := 1, transactionType := "used",
    quantity := 20, notes := none, recordedBy := "Foreman" }

/-- An "added" transaction of 5 bags for the sample Material. -/
def sampleAddedTx : InsertMaterialTransaction :=
  { materialId := 1, siteId := 1, date := 1, transactionType := "added",
    quantity := 5, notes := none, recordedBy := "Foreman" }

/-- A transaction whose type is neither "added" nor "used". -/
def sampleAdjustedTx : InsertMaterialTransaction :=
  { materialId := 1, siteId := 1, date := 1, transactionType := "adjusted",
    quantity := 7, notes := none, recordedBy := "Foreman" }

/-- A transaction referencing a Material id absent from the store. -/
def sampleOrphanTx : InsertMaterialTransaction :=
  { materialId := 99, siteId := 1, date := 1, transactionType := "used",
    quantity := 3, notes := none, recordedBy := "Foreman" }

/-- A schema-valid "added" transaction with negative quantity larger in
magnitude than the sample stock of 15. -/
def sampleNegativeTx : InsertMaterialTransaction :=
  { materialId := 1, siteId := 1, date := 1, transactionType := "added",
    quantity := -20, notes := none, recordedBy := "Foreman" }

/-! ## Per-branch effect of createMaterialTransaction on the Material -/

theorem added_transaction_result (st : MemStorage)
    (t : InsertMaterialTransaction) (now : Nat) (m : Material)
    (hm : mapGet st.materials t.materialId = some m)
    (hid : m.id = t.materialId)
    (hty : t.transactionType = "added") :
    mapGet (createMaterialTransaction st t now).2.materials t.materialId =
      some { m with quantity := m.quantity + t.quantity,
                    lastUpdated := now } := by
  rw [createMaterialTransaction_eq_some st t now m hm, hid]
  simp [updateMaterial, hm, applyMaterialPatch_quantityPatch, newQuantityFor,
        hty, hid, mapGet_mapSet_same]

theorem used_transaction_result (st : MemStorage)
    (t : InsertMaterialTransaction) (now : Nat) (m : Material)
    (hm : mapGet st.materials t.materialId = some m)
    (hid : m.id = t.materialId)
    (hty : t.transactionType = "used") :
    mapGet (createMaterialTransaction st t now).2.materials t.materialId =
      some { m with quantity := if m.quantity - t.quantity < 0 then 0
                                else m.quantity - t.quantity,
                    lastUpdated := now } := by
  rw [createMaterialTransaction_eq_some st t now m hm, hid]
  simp [updateMaterial, hm, applyMaterialPatch_quantityPatch, newQuantityFor,
        hty, hid, (by decide : ¬ ("used" : String) = "added"),
        mapGet_mapSet_same]

theorem other_type_transaction_result (st : MemStorage)
    (t : InsertMaterialTransaction) (now : Nat) (m : Material)
    (hm : mapGet st.materials t.materialId = some m)
    (hid : m.id = t.materialId)
    (h1 : t.transactionType ≠ "added")
    (h2 : t.transactionType ≠ "used") :
    mapGet (createMaterialTransaction st t now).2.materials t.materialId =
      some { m with lastUpdated := now } := by
  rw [createMaterialTransaction_eq_some st t now m hm, hid]
  simp [updateMaterial, hm, applyMaterialPatch_quantityPatch, newQuantityFor,
        h1, h2, hid, mapGet_mapSet_same]

/-! ## The claims -/

/-- Claim C1: starting from a store in which every Material has a
non-negative quantity, any sequence of createMaterialTransaction calls whose
inputs have transactionType "added" or "used" and positive quantity leaves
every Material's quantity non-negative (the "used" branch clamps at 0, the
"added" branch only increases). -/
theorem quantity_nonneg_after_any_sequence (st : MemStorage)
    (txs : List (InsertMaterialTransaction × Nat))
    (hst : allQuantitiesNonneg st)
    (htxs : ∀ t ∈ txs, txOk (Prod.fst t)) :
    allQuantitiesNonneg (runTransactions st txs) := by
  induction txs generalizing st with
  | nil => exact hst
  | cons t ts ih =>
      have h1 : runTransactions st (t :: ts) =
          runTransactions (createMaterialTransaction st t.1 t.2).2 ts := rfl
      rw [h1]
      exact ih _
        (createMaterialTransaction_preserves_nonneg st t.1 t.2
          (htxs t (List.mem_cons_self t ts)) hst)
        (fun u hu => htxs u (List.mem_cons_of_mem t hu))

theorem quantity_nonneg_after_any_sequence_witness :
    allQuantitiesNonneg (runTransactions sampleState
      [(sampleAddedTx, 1), (sampleUsedTx, 2)]) :=
  quantity_nonneg_after_any_sequence sampleState
    [(sampleAddedTx, 1), (sampleUsedTx, 2)] (by decide) (by decide)

/-- Claim C2: a "used" transaction of positive quantity q against an existing
Material of quantity c stores the transaction record with quantity exactly q,
sets the Material quantity to max(c - q, 0) and refreshes lastUpdated;
over-consumption is silently absorbed (the operation is total, no error
path exists). -/
theorem used_transaction_clamps_at_zero (st : MemStorage)
    (t : InsertMaterialTransaction) (now : Nat) (m : Material)
    (hm : mapGet st.materials t.materialId = some m)
    (hid : m.id = t.materialId)
    (hty : t.transactionType = "used")
    (hq : 0 < t.quantity) :
    (createMaterialTransaction st t now).1.quantity = t.quantity ∧
    mapGet (createMaterialTransaction st t now).2.materialTransactions
        st.materialTransactionId = some (newTransactionRecord st t) ∧
    mapGet (createMaterialTransaction st t now).2.materials t.materialId =
      some { m with quantity := max (m.quantity - t.quantity) 0,
                    lastUpdated := now } := by
  refine ⟨?_, ?_, ?_⟩
  · rw [createMaterialTransaction_eq_some st t now m hm]
    rfl
  · rw [createMaterialTransaction_transactions, mapGet_mapSet_same]
  · rw [used_transaction_result st t now m hm hid hty]
    rw [ite_lt_zero_eq_max]

theorem used_transaction_clamps_at_zero_witness :
    (createMaterialTransaction sampleState sampleUsedTx 1).1.quantity
        = sampleUsedTx.quantity ∧
    mapGet (createMaterialTransaction sampleState sampleUsedTx 1).2.materialTransactions
        sampleState.materialTransactionId
      = some (newTransactionRecord sampleState sampleUsedTx) ∧
    mapGet (createMaterialTransaction sampleState sampleUsedTx 1).2.materials
        sampleUsedTx.materialId =
      some { sampleMaterial with
             quantity := max (sampleMaterial.quantity - sampleUsedTx.quantity) 0,
             lastUpdated := 1 } :=
  used_transaction_clamps_at_zero sampleState sampleUsedTx 1 sampleMaterial
    rfl rfl rfl (by decide)

/-- Claim C4: on an existing Material of quantity c, an "added" transaction
of q followed by a "used" transaction of q, with 0 < q ≤ c, restores the
quantity to exactly c. -/
theorem add_then_use_round_trip (st : MemStorage)
    (t1 t2 : InsertMaterialTransaction) (now1 now2 : Nat) (m : Material)
    (q : ℚ)
    (hm : mapGet st.materials t1.materialId = some m)
    (hid : m.id = t1.materialId)
    (hmid : t2.materialId = t1.materialId)
    (ht1 : t1.transactionType = "added") (hq1 : t1.quantity = q)
    (ht2 : t2.transactionType = "used") (hq2 : t2.quantity = q)
    (hq0 : 0 < q) (hqle : q ≤ m.quantity) :
    ∃ m2, mapGet (createMaterialTransaction
          (createMaterialTransaction st t1 now1).2 t2 now2).2.materials
        t1.materialId = some m2 ∧ m2.quantity = m.quantity := by
  have h1 := added_transaction_result st t1 now1 m hm hid ht1
  have hm1 : mapGet (createMaterialTransaction st t1 now1).2.materials
      t2.materialId =
      some { m with quantity := m.quantity + t1.quantity,
                    lastUpdated := now1 } := by
    rw [hmid]; exact h1
  have h2 := used_transaction_result (createMaterialTransaction st t1 now1).2
    t2 now2 _ hm1 (by rw [hmid]; exact hid) ht2
  rw [← hmid]
  refine ⟨_, h2, ?_⟩
  show (if m.quantity + t1.quantity - t2.quantity < 0 then 0
        else m.quantity + t1.quantity - t2.quantity) = m.quantity
  rw [hq1, hq2]
  have harith : m.quantity + q - q = m.quantity := by ring
  rw [harith, if_neg (not_lt.mpr (by linarith : (0:ℚ) ≤ m.quantity))]

theorem add_then_use_round_trip_witness :
    ∃ m2, mapGet (createMaterialTransaction
          (createMaterialTransaction sampleState sampleAddedTx 1).2
          { sampleUsedTx with quantity := 5 } 2).2.materials
        sampleAddedTx.materialId = some m2 ∧
      m2.quantity = sampleMaterial.quantity :=
  add_then_use_round_trip sampleState sampleAddedTx
    { sampleUsedTx with quantity := 5 } 1 2 sampleMaterial 5
    rfl rfl rfl rfl rfl rfl rfl (by decide) (by decide)

/-- Claim C5: when the referenced Material does not exist, the transaction
record is still created, stored and returned; the materials map is left
entirely unchanged, and the (total) operation raises no error. -/
theorem orphan_transaction_recorded (st : MemStorage)
    (t : InsertMaterialTransaction) (now : Nat)
    (h : mapGet st.materials t.materialId = none) :
    (createMaterialTransaction st t now).1 = newTransactionRecord st t ∧
    mapGet (createMaterialTransaction st t now).2.materialTransactions
        st.materialTransactionId = some (newTransactionRecord st t) ∧
    (createMaterialTransaction st t now).2.materials = st.materials := by
  refine ⟨?_, ?_, ?_⟩
  · rw [createMaterialTransaction_eq_none st t now h]
  · rw [createMaterialTransaction_transactions, mapGet_mapSet_same]
  · rw [createMaterialTransaction_eq_none st t now h]

theorem orphan_transaction_recorded_witness :
    (createMaterialTransaction sampleState sampleOrphanTx 1).1
        = newTransactionRecord sampleState sampleOrphanTx ∧
    mapGet (createMaterialTransaction sampleState sampleOrphanTx 1).2.materialTransactions
        sampleState.materialTransactionId
      = some (newTransactionRecord sampleState sampleOrphanTx) ∧
    (createMaterialTransaction sampleState sampleOrphanTx 1).2.materials
      = sampleState.materials :=
  orphan_transaction_recorded sampleState sampleOrphanTx 1 rfl

/-- Claim C9: the insert schema does not restrict transactionType, and for
any other type string on an existing Material the record is stored while the
Material keeps its quantity but still gets a fresh lastUpdated (the code
writes the unchanged quantity back through updateMaterial, which stamps
lastUpdated). -/
theorem unknown_type_refreshes_timestamp_only (st : MemStorage)
    (t : InsertMaterialTransaction) (now : Nat) (m : Material)
    (hm : mapGet st.materials t.materialId = some m)
    (hid : m.id = t.materialId)
    (h1 : t.transactionType ≠ "added")
    (h2 : t.transactionType ≠ "used") :
    insertMaterialTransactionSchemaParse t = some t ∧
    mapGet (createMaterialTransaction st t now).2.materialTransactions
        st.materialTransactionId = some (newTransactionRecord st t) ∧
    mapGet (createMaterialTransaction st t now).2.materials t.materialId =
      some { m with lastUpdated := now } := by
  refine ⟨rfl, ?_, ?_⟩
  · rw [createMaterialTransaction_transactions, mapGet_mapSet_same]
  · exact other_type_transaction_result st t now m hm hid h1 h2

theorem unknown_type_refreshes_timestamp_only_witness :
    insertMaterialTransactionSchemaParse sampleAdjustedTx
        = some sampleAdjustedTx ∧
    mapGet (createMaterialTransaction sampleState sampleAdjustedTx 1).2.materialTransactions
        sampleState.materialTransactionId
      = some (newTransactionRecord sampleState sampleAdjustedTx) ∧
    mapGet (createMaterialTransaction sampleState sampleAdjustedTx 1).2.materials
        sampleAdjustedTx.materialId =
      some { sampleMaterial with lastUpdated := 1 } :=
  unknown_type_refreshes_timestamp_only sampleState sampleAdjustedTx 1
    sampleMaterial rfl rfl (by decide) (by decide)

/-- Claim C10: the insert schema accepts a negative "added" quantity, and
running such a transaction (quantity -20 against stock 15) leaves the
Material with the strictly negative quantity 15 + (-20): the "added" branch
has no clamp. -/
theorem negative_added_drives_stock_negative :
    insertMaterialTransactionSchemaParse sampleNegativeTx
        = some sampleNegativeTx ∧
    mapGet (createMaterialTransaction sampleState sampleNegativeTx 1).2.materials
        sampleNegativeTx.materialId =
      some { sampleMaterial with
             quantity := sampleMaterial.quantity + sampleNegativeTx.quantity,
             lastUpdated := 1 } ∧
    sampleMaterial.quantity + sampleNegativeTx.quantity < 0 := by
  refine ⟨rfl, ?_, ?_⟩
  · exact added_transaction_result sampleState sampleNegativeTx 1
      sampleMaterial rfl rfl rfl
  · norm_num [sampleMaterial, sampleNegativeTx]

/-- Claim C6: getLowStockMaterials returns exactly the Materials stored for
the given site whose quantity is strictly below their minStockLevel, and no
others. -/
theorem low_stock_materials_exact (st : MemStorage) (siteId : Nat)
    (m : Material) :
    m ∈ getLowStockMaterials st siteId ↔
      m ∈ mapValues st.materials ∧ m.siteId = siteId ∧
        m.quantity < m.minStockLevel := by
  simp [getLowStockMaterials, List.mem_filter, and_assoc]

/-- Claim C7: deleteMaterial removes only the Material record: the whole
transaction ledger and both id counters are untouched (no cascade delete),
and the Material itself is gone from the materials map. -/
theorem delete_material_no_cascade (st : MemStorage) (id : Nat) :
    (deleteMaterial st id).2.materialTransactions =
        st.materialTransactions ∧
    (deleteMaterial st id).2.materialTransactionId =
        st.materialTransactionId ∧
    (deleteMaterial st id).2.materialId = st.materialId ∧
    (deleteMaterial st id).2.materials = mapDel st.materials id ∧
    mapGet (deleteMaterial st id).2.materials id = none :=
  ⟨rfl, rfl, rfl, rfl, mapGet_mapDel_same st.materials id⟩

/-- Claim C8: the ledger is append-only.  In any state whose stored
transaction ids are below the id counter (an invariant of every reachable
state, preserved by every operation as the second conjunct shows), every
already-stored transaction record is returned unchanged by the same lookup
after any storage operation. -/
theorem transaction_records_append_only (st : MemStorage) (op : StorageOp)
    (hwf : txIdsBounded st) (tid : Nat) (tx : MaterialTransaction)
    (h : mapGet st.materialTransactions tid = some tx) :
    mapGet (applyOp st op).materialTransactions tid = some tx ∧
    txIdsBounded (applyOp st op) := by
  cases op with
  | createMaterialOp mi now =>
      exact ⟨h, hwf⟩
  | updateMaterialOp id pt now =>
      have e := updateMaterial_transactions st id pt now
      have ec := updateMaterial_txCounter st id pt now
      constructor
      · show mapGet (updateMaterial st id pt now).2.materialTransactions tid
            = some tx
        rw [e]; exact h
      · show txIdsBounded (updateMaterial st id pt now).2
        unfold txIdsBounded
        rw [e, ec]
        exact hwf
  | deleteMaterialOp id =>
      exact ⟨h, hwf⟩
  | createMaterialTransactionOp t now =>
      have htid : tid < st.materialTransactionId :=
        hwf (tid, tx) (mapGet_some_mem _ _ _ h)
      have e := createMaterialTransaction_transactions st t now
      have ec := createMaterialTransaction_txCounter st t now
      constructor
      · show mapGet (createMaterialTransaction st t now).2.materialTransactions
            tid = some tx
        rw [e, mapGet_mapSet_ne _ _ _ _ (Nat.ne_of_lt htid)]
        exact h
      · show txIdsBounded (createMaterialTransaction st t now).2
        unfold txIdsBounded
        rw [e, ec]
        intro r hr
        rcases mem_mapSet _ _ _ _ hr with h' | h'
        · rw [h']; exact Nat.lt_succ_self _
        · exact Nat.lt_succ_of_lt (hwf r h')

/-- A stored ledger entry and a state holding it, counters ahead of ids. -/
def sampleTransactionRecord : MaterialTransaction :=
  { id := 1, materialId := 1, siteId := 1, date := 1,
    transactionType := "added", quantity := 5, notes := none,
    recordedBy := "Foreman" }

def sampleStateWithLedger : MemStorage :=
  { materials := [(1, sampleMaterial)],
    materialTransactions := [(1, sampleTransactionRecord)],
    materialId := 2,
    materialTransactionId := 2 }

theorem transaction_records_append_only_witness :
    mapGet (applyOp sampleStateWithLedger
        (StorageOp.createMaterialTransactionOp sampleUsedTx 2)).materialTransactions
        1 = some sampleTransactionRecord ∧
    txIdsBounded (applyOp sampleStateWithLedger
        (StorageOp.createMaterialTransactionOp sampleUsedTx 2)) :=
  transaction_records_append_only sampleStateWithLedger
    (StorageOp.createMaterialTransactionOp sampleUsedTx 2)
    (by decide) 1 sampleTransactionRecord rfl

/-- A Material with a negative minimum stock level; the insert schema does
not forbid it. -/
def negativeMinMaterial : Material :=
  { id := 2, siteId := 1, name := "Scrap", category := "Misc", unit := "kg",
    quantity := 5, minStockLevel := -10, lastUpdated := 0 }

/-- Claim C3 counterexample: for the Material with quantity 5 and
minStockLevel -10 the claim demands "sufficient" (5 ≥ -10), but the code
computes 5 / (-10) × 100 = -50 < 40 and returns "critical". -/
theorem stock_status_claim_counterexample :
    negativeMinMaterial.minStockLevel ≤ negativeMinMaterial.quantity ∧
    getStockStatus negativeMinMaterial ≠ StockStatus.sufficient ∧
    getStockStatus negativeMinMaterial = StockStatus.critical := by
  have hc : getStockStatus negativeMinMaterial = StockStatus.critical := by
    simp only [getStockStatus, negativeMinMaterial]
    norm_num
  refine ⟨by norm_num [negativeMinMaterial], ?_, hc⟩
  rw [hc]
  decide

/-- Claim C3 (amended): for every Material with minStockLevel > 0, the
classification is "sufficient" exactly when quantity ≥ minStockLevel,
"critical" exactly when quantity / minStockLevel < 0.4 (= 2/5), and "low"
otherwise (0.4 ≤ ratio and quantity < minStockLevel).  The boundary cases of
the claim follow: ratio 1 is sufficient, 0.39 critical, 0.9 low. -/
theorem stock_status_classification (m : Material)
    (hpos : 0 < m.minStockLevel) :
    (getStockStatus m = StockStatus.sufficient ↔
        m.minStockLevel ≤ m.quantity) ∧
    (getStockStatus m = StockStatus.critical ↔
        m.quantity / m.minStockLevel < 2/5) ∧
    (getStockStatus m = StockStatus.low ↔
        2/5 ≤ m.quantity / m.minStockLevel ∧
          m.quantity < m.minStockLevel) := by
  have h0 : m.minStockLevel ≠ 0 := ne_of_gt hpos
  unfold getStockStatus
  rw [if_neg h0]
  by_cases h40 : m.quantity / m.minStockLevel * 100 < 40
  · have hr : m.quantity / m.minStockLevel < 2/5 := by linarith
    have hq : m.quantity < m.minStockLevel := by
      have h1 : m.quantity / m.minStockLevel < 1 := by linarith
      exact (div_lt_one hpos).mp h1
    rw [if_pos h40]
    refine ⟨?_, iff_of_true rfl hr, ?_⟩
    · constructor
      · intro hx; exact absurd hx (by decide)
      · intro hx; exact absurd hq (not_lt.mpr hx)
    · constructor
      · intro hx; exact absurd hx (by decide)
      · rintro ⟨h1, -⟩; exact absurd hr (not_lt.mpr h1)
  · rw [if_neg h40]
    have hr : 2/5 ≤ m.quantity / m.minStockLevel := by
      by_contra hcon
      exact h40 (by linarith [not_le.mp hcon])
    by_cases h100 : m.quantity / m.minStockLevel * 100 < 100
    · have hq : m.quantity < m.minStockLevel := by
        have h1 : m.quantity / m.minStockLevel < 1 := by linarith
        exact (div_lt_one hpos).mp h1
      rw [if_pos h100]
      refine ⟨?_, ?_, iff_of_true rfl ⟨hr, hq⟩⟩
      · constructor
        · intro hx; exact absurd hx (by decide)
        · intro hx; exact absurd hq (not_lt.mpr hx)
      · constructor
        · intro hx; exact absurd hx (by decide)
        · intro hx; exact absurd hx (not_lt.mpr hr)
    · rw [if_neg h100]
      have hq : m.minStockLevel ≤ m.quantity := by
        have h1 : 1 ≤ m.quantity / m.minStockLevel := by
          linarith [not_lt.mp h100]
        have h2 := (le_div_iff₀ hpos).mp h1
        rwa [one_mul] at h2
      refine ⟨iff_of_true rfl hq, ?_, ?_⟩
      · constructor
        · intro hx; exact absurd hx (by decide)
        · intro hx; exact absurd hx (not_lt.mpr hr)
      · constructor
        · intro hx; exact absurd hx (by decide)
        · rintro ⟨-, h2⟩; exact absurd hq (not_le.mpr h2)

/-- A Material sitting at 39 percent of its minimum stock level. -/
def boundaryMaterial : Material :=
  { id := 3, siteId := 1, name := "Sand", category := "Building",
    unit := "cft", quantity := 39, minStockLevel := 100, lastUpdated := 0 }

theorem stock_status_classification_witness :
    (getStockStatus boundaryMaterial = StockStatus.sufficient ↔
        boundaryMaterial.minStockLevel ≤ boundaryMaterial.quantity) ∧
    (getStockStatus boundaryMaterial = StockStatus.critical ↔
        boundaryMaterial.quantity / boundaryMaterial.minStockLevel < 2/5) ∧
    (getStockStatus boundaryMaterial = StockStatus.low ↔
        2/5 ≤ boundaryMaterial.quantity / boundaryMaterial.minStockLevel ∧
          boundaryMaterial.quantity < boundaryMaterial.minStockLevel) :=
  stock_status_classification boundaryMaterial (by decide)

end Nirman
